import Mathlib

/-!
# MatchaSequence: a canvas image-sequence player

Shallow embedding of `src/matcha-sequence.js` (class `MatchaSequence`).

Conventions of the embedding:

* A JavaScript number is the rational it denotes. The drawing geometry
  (`renderFrame`, `resize`) is computed in IEEE 754 doubles: every operation
  of the source is followed by `roundDouble`, the correctly rounded result.
  The same bodies, with the rounding as a parameter (`renderFrameIn`,
  `resizeIn`), give exact arithmetic at the identity. Infinities and `NaN`
  are not represented: the statements about drawing assume images of positive
  size, and sizes far below the overflow threshold.
* The timing of `loop` is exact rational arithmetic. `play()` calls `loop()`
  without an argument, so `timestamp` can be `undefined` and `delta` is then
  `NaN`; timestamps are therefore `Option ℚ`, `none` standing for
  `undefined`, and a comparison with `NaN` is `false`.
* `canvas.width` and `canvas.height` are `unsigned long` attributes: an
  assignment stores the number without its fraction (`reflectUnsignedLong`).
* A method is a function from the object state (`Player`) and the values it
  reads from the platform (`devicePixelRatio`, `performance.now()`, the parent
  rectangle) to an `Outcome`: the state afterwards, the calls it made in
  order, and the exception it ended with, if any.
* `this.images` is a list; `images[index]` is `imageAt`, which is `undefined`
  (`none`) for negative and too large indices.
-/

namespace MatchaSequence

/-- An `Image` element: its `src`, its `complete` flag and its pixel size. -/
structure Image where
  src : String
  complete : Bool
  width : ℚ
  height : ℚ
deriving DecidableEq, Repr

/-- Exceptions a method can end with. -/
inductive JsError where
  | typeError
deriving DecidableEq, Repr

/-- Calls a method makes, in program order: on the drawing context, on the
window, and on `this`. -/
inductive Call where
  | drawImage (img : Image) (x y dw dh : ℚ)
  | scale (sx sy : ℚ)
  | requestAnimationFrame
  | renderFrame (index : Int)
  | loop (timestamp : Option ℚ)
  | play
  | pause
deriving DecidableEq, Repr

/-- The fields of a `MatchaSequence` object, with the canvas attributes and the
context settings the methods assign. -/
structure Player where
  frameCount : Nat
  images : List Image
  imagesLoaded : Nat
  currentFrame : Nat
  isPlaying : Bool
  fps : ℚ
  lastFrameTime : ℚ
  frameInterval : ℚ
  basePath : String
  extension : String
  padLength : Nat
  canvasWidth : ℚ
  canvasHeight : ℚ
  styleWidth : Option ℚ
  styleHeight : Option ℚ
  imageSmoothingEnabled : Bool
  imageSmoothingQuality : String
deriving DecidableEq, Repr

/-- Result of running a method. -/
structure Outcome where
  state : Player
  calls : List Call
  error : Option JsError
deriving DecidableEq, Repr

/-- The rectangle returned by `getBoundingClientRect()`. -/
structure Rect where
  width : ℚ
  height : ℚ
deriving DecidableEq, Repr

/-- JavaScript `String.prototype.padStart` with a one-character filler. -/
def padStart (s : String) (targetLength : Nat) (c : Char) : String :=
  String.mk (List.replicate (targetLength - s.length) c) ++ s

/-- Method `pad(num)`: `num.toString().padStart(this.padLength, '0')`. -/
def pad (p : Player) (num : Nat) : String :=
  padStart (toString num) p.padLength '0'

/-- A fresh `new Image()` whose `src` has just been assigned. -/
def newImage (src : String) : Image :=
  { src := src, complete := false, width := 0, height := 0 }

/-- Template literal of line 65: base path, padded index, extension. -/
def framePath (p : Player) (i : Nat) : String :=
  p.basePath ++ pad p i ++ p.extension

/-- Method `preloadImages()`: the `for` loop over `i = 1 .. frameCount`, each
round pushing one image. -/
def preloadImages (p : Player) : Player :=
  (List.range' 1 p.frameCount).foldl
    (fun q i => { q with images := q.images ++ [newImage (framePath q i)] })
    p

/-- The fields as the constructor assigns them (lines 19 to 36), for a canvas
of the given backing size. -/
def fields (canvasWidth canvasHeight : ℚ) : Player :=
  { frameCount := 40
    images := []
    imagesLoaded := 0
    currentFrame := 0
    isPlaying := false
    fps := 24
    lastFrameTime := 0
    frameInterval := 1000 / 24
    basePath := "hero/seq/ezgif-frame-"
    extension := ".jpg"
    padLength := 3
    canvasWidth := canvasWidth
    canvasHeight := canvasHeight
    styleWidth := none
    styleHeight := none
    imageSmoothingEnabled := true
    imageSmoothingQuality := "high" }

/-- The object once the constructor has run `init()` up to `preloadImages()`;
the timers and the observer of `init()` fire later, as separate events. -/
def construct (canvasWidth canvasHeight : ℚ) : Player :=
  preloadImages (fields canvasWidth canvasHeight)

/-- Array read `images[index]`: `undefined` outside the array. -/
def imageAt (images : List Image) (index : Int) : Option Image :=
  if index < 0 then none else images[index.toNat]?

/-- Property read `x.f`: a `TypeError` when `x` is `undefined`. -/
def prop {α : Type} (x : Option Image) (f : Image → α) : Except JsError α :=
  match x with
  | none => .error .typeError
  | some img => .ok (f img)

/-- Expression `window.devicePixelRatio || 1`: a missing or zero value gives 1. -/
def dprOr1 (dpr : Option ℚ) : ℚ :=
  match dpr with
  | none => 1
  | some d => if d = 0 then 1 else d

/-- Truncation of a rational towards zero. -/
def truncQ (q : ℚ) : ℤ :=
  if 0 ≤ q then ⌊q⌋ else ⌈q⌉

/-- Power of two with an integer exponent. -/
def pow2 (e : ℤ) : ℚ :=
  if 0 ≤ e then ((2 ^ e.toNat : ℕ) : ℚ) else 1 / ((2 ^ (-e).toNat : ℕ) : ℚ)

/-- Binary logarithm by repeated halving, at most `fuel` times. -/
def log2Aux : ℕ → ℕ → ℕ
  | 0, _ => 0
  | fuel + 1, n => if n < 2 then 0 else log2Aux fuel (n / 2) + 1

/-- The `k` with `2 ^ k ≤ n < 2 ^ (k + 1)`, for `n ≠ 0`. -/
def natLog2 (n : ℕ) : ℕ :=
  log2Aux n n

/-- The exponent `e` with `2 ^ e ≤ |x| < 2 ^ (e + 1)`, for `x ≠ 0`. -/
def binaryExponent (x : ℚ) : ℤ :=
  let e : ℤ := (natLog2 x.num.natAbs : ℤ) - (natLog2 x.den : ℤ)
  if pow2 e ≤ |x| then e else e - 1

/-- Nearest integer, a tie going to the even one. -/
def roundHalfEven (m : ℚ) : ℤ :=
  let f := ⌊m⌋
  if m - f < 1 / 2 then f
  else if 1 / 2 < m - f then f + 1
  else if f % 2 = 0 then f else f + 1

/-- IEEE 754 binary64 rounding of a real result, round to nearest, ties to
even: 53 significant bits, exponents from -1022 up, gradual underflow below.
Overflow to an infinity is not represented. -/
def roundDouble (x : ℚ) : ℚ :=
  if x = 0 then 0
  else
    let e := max (binaryExponent x) (-1022)
    let q := pow2 (e - 52)
    let m := roundHalfEven (|x| / q)
    if x < 0 then -((m : ℚ) * q) else (m : ℚ) * q

/-- Conversion of a number to a Web IDL `unsigned long`: the fraction is
dropped and the result taken modulo `2 ^ 32`. -/
def toUnsignedLong (x : ℚ) : ℕ :=
  (truncQ x % 4294967296).toNat

/-- Setter of a reflected `unsigned long` attribute with a default, as
`canvas.width` (default 300) and `canvas.height` (default 150): the value
stored, the default when it exceeds 2147483647. -/
def reflectUnsignedLong (fallback : ℕ) (x : ℚ) : ℕ :=
  if toUnsignedLong x ≤ 2147483647 then toUnsignedLong x else fallback

/-- Body of `renderFrame(index)` as a computation that may throw; `fl` rounds
the result of each arithmetic operation. -/
def renderCallsIn (fl : ℚ → ℚ) (p : Player) (dpr : Option ℚ) (index : Int) :
    Except JsError (List Call) :=
  let slot := imageAt p.images index
  -- if (!this.images[index] || !this.images[index].complete) return;
  if slot.isNone then .ok []
  else
    (prop slot Image.complete).bind fun complete =>
    if !complete then .ok []
    else
      let w := fl (p.canvasWidth / dprOr1 dpr)
      let h := fl (p.canvasHeight / dprOr1 dpr)
      let img := slot
      (prop img Image.width).bind fun iw =>
      (prop img Image.height).bind fun ih =>
      let scale := max (fl (w / iw)) (fl (h / ih))
      let x := fl (fl (w / 2) - fl (fl (iw / 2) * scale))
      let y := fl (fl (h / 2) - fl (fl (ih / 2) * scale))
      (prop img id).bind fun image =>
      .ok [Call.drawImage image x y (fl (iw * scale)) (fl (ih * scale))]

/-- Method `renderFrame(index)` under the arithmetic `fl`. It assigns no
field. -/
def renderFrameIn (fl : ℚ → ℚ) (p : Player) (dpr : Option ℚ) (index : Int) : Outcome :=
  match renderCallsIn fl p dpr index with
  | .ok calls => { state := p, calls := calls, error := none }
  | .error e => { state := p, calls := [], error := some e }

/-- Method `renderFrame(index)`, in doubles. -/
def renderFrame (p : Player) (dpr : Option ℚ) (index : Int) : Outcome :=
  renderFrameIn roundDouble p dpr index

/-- JavaScript `a % b` on numbers, for `b ≠ 0`: the remainder has the sign of
the dividend. -/
def jsRem (a b : ℚ) : ℚ :=
  a - b * (truncQ (a / b) : ℚ)

/-- Method `loop(timestamp)`. With `timestamp` undefined, `delta` is `NaN` and
`delta > this.frameInterval` is false. -/
def loop (p : Player) (dpr : Option ℚ) (timestamp : Option ℚ) : Outcome :=
  if !p.isPlaying then { state := p, calls := [], error := none }
  else
    match timestamp with
    | none => { state := p, calls := [Call.requestAnimationFrame], error := none }
    | some t =>
      let delta := t - p.lastFrameTime
      if delta > p.frameInterval then
        let p1 := { p with currentFrame := (p.currentFrame + 1) % p.frameCount }
        let r := renderFrame p1 dpr p1.currentFrame
        match r.error with
        | some e =>
          { state := r.state
            calls := Call.renderFrame p1.currentFrame :: r.calls
            error := some e }
        | none =>
          let p2 := { r.state with lastFrameTime := t - jsRem delta p.frameInterval }
          { state := p2
            calls := Call.renderFrame p1.currentFrame :: r.calls ++ [Call.requestAnimationFrame]
            error := none }
      else
        { state := p, calls := [Call.requestAnimationFrame], error := none }

/-- Method `play()`; `now` is the value of `performance.now()`. -/
def play (p : Player) (dpr : Option ℚ) (now : ℚ) : Outcome :=
  if p.isPlaying then { state := p, calls := [], error := none }
  else
    let p1 := { p with isPlaying := true }
    let p2 := { p1 with lastFrameTime := now }
    let r := loop p2 dpr none
    { state := r.state, calls := Call.loop none :: r.calls, error := r.error }

/-- Method `pause()`. -/
def pause (p : Player) : Outcome :=
  { state := { p with isPlaying := false }, calls := [], error := none }

/-- Closure `resize` of `setupCanvas()` under the arithmetic `fl`; `parent` is
the bounding rectangle of `canvas.parentElement`, `none` when there is no
parent element. -/
def resizeIn (fl : ℚ → ℚ) (p : Player) (dpr : Option ℚ) (parent : Option Rect) : Outcome :=
  match parent with
  | none => { state := p, calls := [], error := none }
  | some rect =>
    let d := dprOr1 dpr
    let width := rect.width
    let height := rect.height
    let p1 := { p with
      canvasWidth := (reflectUnsignedLong 300 (fl (width * d)) : ℕ)
      canvasHeight := (reflectUnsignedLong 150 (fl (height * d)) : ℕ) }
    let p2 := { p1 with styleWidth := some width, styleHeight := some height }
    let p3 := { p2 with imageSmoothingEnabled := true, imageSmoothingQuality := "high" }
    let r := renderFrameIn fl p3 dpr p3.currentFrame
    { state := r.state
      calls := Call.scale d d :: Call.renderFrame p3.currentFrame :: r.calls
      error := r.error }

/-- Closure `resize` of `setupCanvas()`, in doubles. -/
def resize (p : Player) (dpr : Option ℚ) (parent : Option Rect) : Outcome :=
  resizeIn roundDouble p dpr parent

/-- An `IntersectionObserverEntry`: the field the callback reads, and the value
`performance.now()` returns while the entry is handled. -/
structure Entry where
  isIntersecting : Bool
  now : ℚ
deriving DecidableEq, Repr

/-- Body of the `forEach` in the observer callback, for one entry. -/
def onEntry (p : Player) (dpr : Option ℚ) (entry : Entry) : Outcome :=
  if entry.isIntersecting then
    let r := play p dpr entry.now
    { state := r.state, calls := Call.play :: r.calls, error := r.error }
  else
    let r := pause p
    { state := r.state, calls := Call.pause :: r.calls, error := r.error }

/-- The `IntersectionObserver` callback: `entries.forEach(...)`, which stops at
the first exception. -/
def observerCallback (p : Player) (dpr : Option ℚ) : List Entry → Outcome
  | [] => { state := p, calls := [], error := none }
  | entry :: rest =>
    let r := onEntry p dpr entry
    match r.error with
    | some e => { state := r.state, calls := r.calls, error := some e }
    | none =>
      let r2 := observerCallback r.state dpr rest
      { state := r2.state, calls := r.calls ++ r2.calls, error := r2.error }

/-- The arguments of the `renderFrame` calls of a trace, in order. -/
def visited (calls : List Call) : List Int :=
  calls.filterMap fun c =>
    match c with
    | Call.renderFrame index => some index
    | _ => none

/-- Number of `requestAnimationFrame` calls of a trace. -/
def requested (calls : List Call) : Nat :=
  calls.count Call.requestAnimationFrame

/-- One self-rescheduling chain of `loop` callbacks: the callback requested by
one run of `loop` is delivered with the next timestamp; the chain ends when a
run requests no callback. -/
def ticks (p : Player) (dpr : Option ℚ) : List ℚ → Outcome
  | [] => { state := p, calls := [], error := none }
  | t :: ts =>
    let r := loop p dpr (some t)
    if requested r.calls = 0 then r
    else
      let r2 := ticks r.state dpr ts
      { state := r2.state, calls := r.calls ++ r2.calls, error := r2.error }

/-- The object together with the number of animation-frame callbacks that were
requested and have not run yet. -/
structure Page where
  player : Player
  pending : Nat
deriving DecidableEq, Repr

/-- What can happen to the page: the two methods the observer calls, and an
animation frame with its timestamp. -/
inductive Event where
  | play (now : ℚ)
  | pause
  | animationFrame (t : ℚ)
deriving DecidableEq, Repr

/-- Running `n` pending `loop` callbacks with the same timestamp; the second
component counts the callbacks they request for the next frame. -/
def runCallbacks (dpr : Option ℚ) (t : ℚ) : Nat → Player × Nat → Player × Nat
  | 0, acc => acc
  | n + 1, acc =>
    let r := loop acc.1 dpr (some t)
    runCallbacks dpr t n (r.state, acc.2 + requested r.calls)

/-- One event on the page. An animation frame runs every pending callback. -/
def Page.step (dpr : Option ℚ) (s : Page) : Event → Page
  | Event.play now =>
    let r := MatchaSequence.play s.player dpr now
    { player := r.state, pending := s.pending + requested r.calls }
  | Event.pause =>
    { player := (MatchaSequence.pause s.player).state, pending := s.pending }
  | Event.animationFrame t =>
    let r := runCallbacks dpr t s.pending (s.player, 0)
    { player := r.1, pending := r.2 }

/-- A sequence of events, in order. -/
def Page.run (dpr : Option ℚ) (s : Page) (events : List Event) : Page :=
  events.foldl (Page.step dpr) s

/-- Value of a decimal numeral, read digit by digit. -/
def numeralValue (s : String) : Nat :=
  s.data.foldl (fun acc c => 10 * acc + (c.toNat - '0'.toNat)) 0

/-- Specification of `pad`: the decimal numeral of `n`, left-padded with the
character 0 to the given width. -/
def zeroPadded (width n : Nat) : String :=
  String.mk (List.replicate (width - (Nat.toDigits 10 n).length) '0' ++ Nat.toDigits 10 n)

/-- Completion of the load of `images[k]` with the given natural size: the
browser fills in the element, then runs its `onload` handler,
`this.imagesLoaded++`. Nothing happens when there is no such element. -/
def onload (p : Player) (k : Nat) (width height : ℚ) : Player :=
  match p.images[k]? with
  | none => p
  | some img =>
    { p with
      images := p.images.set k { img with complete := true, width := width, height := height }
      imagesLoaded := p.imagesLoaded + 1 }

/-- A player on a 1600 x 1200 canvas whose first frame, of size 1920 x 1080,
has loaded. -/
def firstFrameLoaded : Player :=
  onload (construct 1600 1200) 0 1920 1080

/-- The first frame of `firstFrameLoaded`. -/
def firstFrame : Image :=
  { src := "hero/seq/ezgif-frame-001.jpg", complete := true, width := 1920, height := 1080 }

/-- The constructed player on a 300 x 150 canvas after `play()` at time 0. -/
def playingFromStart : Player :=
  (play (construct 300 150) none 0).state

/-- A player on a 1080 x 2400 canvas whose first frame, of size 1920 x 1080,
has loaded. -/
def portraitCanvas : Player :=
  onload (construct 1080 2400) 0 1920 1080

/-- A player on a 1923 x 1080 canvas whose first frame, of size 1920 x 1080,
has loaded. -/
def wideCanvas : Player :=
  onload (construct 1923 1080) 0 1920 1080

/-! # Theorems -/

/-! ## Reading the image array -/

theorem imageAt_neg (images : List Image) (index : Int) (h : index < 0) :
    imageAt images index = none := by
  simp [imageAt, h]

theorem imageAt_large (images : List Image) (index : Int)
    (h : (images.length : Int) ≤ index) : imageAt images index = none := by
  unfold imageAt
  split
  · rfl
  · apply List.getElem?_eq_none
    omega

theorem imageAt_ofNat (images : List Image) (k : Nat) :
    imageAt images (k : Int) = images[k]? := by
  simp [imageAt]

/-! ## renderFrame -/

theorem renderCallsIn_absent (fl : ℚ → ℚ) (p : Player) (dpr : Option ℚ) (index : Int)
    (h : imageAt p.images index = none) : renderCallsIn fl p dpr index = .ok [] := by
  simp [renderCallsIn, h]

theorem renderCallsIn_incomplete (fl : ℚ → ℚ) (p : Player) (dpr : Option ℚ) (index : Int)
    (img : Image) (h : imageAt p.images index = some img) (hc : img.complete = false) :
    renderCallsIn fl p dpr index = .ok [] := by
  simp [renderCallsIn, h, prop, Except.bind, hc]

theorem renderCallsIn_loaded (fl : ℚ → ℚ) (p : Player) (dpr : Option ℚ) (index : Int)
    (img : Image) (h : imageAt p.images index = some img) (hc : img.complete = true) :
    renderCallsIn fl p dpr index = .ok
      [Call.drawImage img
        (fl (fl (fl (p.canvasWidth / dprOr1 dpr) / 2) - fl (fl (img.width / 2) *
          max (fl (fl (p.canvasWidth / dprOr1 dpr) / img.width))
            (fl (fl (p.canvasHeight / dprOr1 dpr) / img.height)))))
        (fl (fl (fl (p.canvasHeight / dprOr1 dpr) / 2) - fl (fl (img.height / 2) *
          max (fl (fl (p.canvasWidth / dprOr1 dpr) / img.width))
            (fl (fl (p.canvasHeight / dprOr1 dpr) / img.height)))))
        (fl (img.width *
          max (fl (fl (p.canvasWidth / dprOr1 dpr) / img.width))
            (fl (fl (p.canvasHeight / dprOr1 dpr) / img.height))))
        (fl (img.height *
          max (fl (fl (p.canvasWidth / dprOr1 dpr) / img.width))
            (fl (fl (p.canvasHeight / dprOr1 dpr) / img.height))))] := by
  simp [renderCallsIn, h, prop, Except.bind, hc]

theorem renderCallsIn_ok (fl : ℚ → ℚ) (p : Player) (dpr : Option ℚ) (index : Int) :
    ∃ calls, renderCallsIn fl p dpr index = .ok calls ∧ visited calls = [] ∧
      requested calls = 0 := by
  cases h : imageAt p.images index with
  | none => exact ⟨[], renderCallsIn_absent fl p dpr index h, rfl, rfl⟩
  | some img =>
    cases hc : img.complete with
    | false => exact ⟨[], renderCallsIn_incomplete fl p dpr index img h hc, rfl, rfl⟩
    | true => exact ⟨_, renderCallsIn_loaded fl p dpr index img h hc, rfl, rfl⟩

theorem renderFrameIn_state (fl : ℚ → ℚ) (p : Player) (dpr : Option ℚ) (index : Int) :
    (renderFrameIn fl p dpr index).state = p := by
  unfold renderFrameIn
  split <;> rfl

theorem renderFrameIn_error (fl : ℚ → ℚ) (p : Player) (dpr : Option ℚ) (index : Int) :
    (renderFrameIn fl p dpr index).error = none := by
  obtain ⟨calls, h, -, -⟩ := renderCallsIn_ok fl p dpr index
  simp [renderFrameIn, h]

theorem renderFrameIn_visited (fl : ℚ → ℚ) (p : Player) (dpr : Option ℚ) (index : Int) :
    visited (renderFrameIn fl p dpr index).calls = [] := by
  obtain ⟨calls, h, hv, -⟩ := renderCallsIn_ok fl p dpr index
  simp [renderFrameIn, h, hv]

theorem renderFrameIn_requested (fl : ℚ → ℚ) (p : Player) (dpr : Option ℚ) (index : Int) :
    requested (renderFrameIn fl p dpr index).calls = 0 := by
  obtain ⟨calls, h, -, hr⟩ := renderCallsIn_ok fl p dpr index
  simp [renderFrameIn, h, hr]

theorem renderFrame_state (p : Player) (dpr : Option ℚ) (index : Int) :
    (renderFrame p dpr index).state = p :=
  renderFrameIn_state roundDouble p dpr index

theorem renderFrame_error (p : Player) (dpr : Option ℚ) (index : Int) :
    (renderFrame p dpr index).error = none :=
  renderFrameIn_error roundDouble p dpr index

theorem renderFrame_visited (p : Player) (dpr : Option ℚ) (index : Int) :
    visited (renderFrame p dpr index).calls = [] :=
  renderFrameIn_visited roundDouble p dpr index

theorem renderFrame_requested (p : Player) (dpr : Option ℚ) (index : Int) :
    requested (renderFrame p dpr index).calls = 0 :=
  renderFrameIn_requested roundDouble p dpr index

theorem dprOr1_ne_zero (dpr : Option ℚ) : dprOr1 dpr ≠ 0 := by
  unfold dprOr1
  split
  · exact one_ne_zero
  · split
    · exact one_ne_zero
    · assumption

theorem dprOr1_some (d : ℚ) (h : d ≠ 0) : dprOr1 (some d) = d := by
  simp [dprOr1, h]

/-- C4: when `images[index]` is absent (in particular for a negative index and
for an index at or beyond the number of constructed images) or its `complete`
flag is false, `renderFrame(index)` makes no call at all, so no `drawImage`
call, ends without an exception and leaves every field of the player as it
was. -/
theorem renderFrame_skips_unready (p : Player) (dpr : Option ℚ) (index : Int)
    (h : index < 0 ∨ (p.images.length : Int) ≤ index ∨ imageAt p.images index = none ∨
      ∃ img, imageAt p.images index = some img ∧ img.complete = false) :
    renderFrame p dpr index = { state := p, calls := [], error := none } := by
  have key : renderCallsIn roundDouble p dpr index = .ok [] := by
    rcases h with h | h | h | ⟨img, h, hc⟩
    · exact renderCallsIn_absent _ p dpr index (imageAt_neg _ _ h)
    · exact renderCallsIn_absent _ p dpr index (imageAt_large _ _ h)
    · exact renderCallsIn_absent _ p dpr index h
    · exact renderCallsIn_incomplete _ p dpr index img h hc
  simp [renderFrame, renderFrameIn, key]

theorem renderFrame_skips_unready_witness :
    ((-1 : Int) < 0 ∨ (((construct 300 150).images.length : Nat) : Int) ≤ -1 ∨
        imageAt (construct 300 150).images (-1) = none ∨
        ∃ img, imageAt (construct 300 150).images (-1) = some img ∧ img.complete = false) ∧
      renderFrame (construct 300 150) (some 2) (-1)
        = { state := construct 300 150, calls := [], error := none } :=
  ⟨Or.inl (by decide), renderFrame_skips_unready (construct 300 150) (some 2) (-1) (Or.inl (by decide))⟩

theorem firstFrameLoaded_image : imageAt firstFrameLoaded.images 0 = some firstFrame := by
  rfl

theorem portraitCanvas_image : imageAt portraitCanvas.images 0 = some firstFrame := by
  rfl

theorem wideCanvas_image : imageAt wideCanvas.images 0 = some firstFrame := by
  rfl

/-- C5 as stated fails on the code, which computes in doubles: on a
1080 x 2400 canvas at device pixel ratio 2.625 with a loaded 1920 x 1080
image, the one `drawImage` call has `x = -606.984126984127` and
`dw = 1625.3968253968255`, and `x + dw / 2` is neither half the logical width
the code computed (`411.42857142857144`) nor half the exact quotient
`1080 / 2.625`: the centre of the rectangle is not the centre of the
surface. -/
theorem renderFrame_centre_off_in_doubles :
    imageAt portraitCanvas.images 0 = some firstFrame ∧ firstFrame.complete = true ∧
      0 < firstFrame.width ∧ 0 < firstFrame.height ∧
      (renderFrame portraitCanvas (some (21 / 8)) 0).calls =
        [Call.drawImage firstFrame (-2669544421978047 / 4398046511104) 0
          (3574285418548013 / 2199023255552) (8042142191733029 / 8796093022208)] ∧
      roundDouble (portraitCanvas.canvasWidth / dprOr1 (some (21 / 8)))
        = 3618963986279863 / 8796093022208 ∧
      (-2669544421978047 / 4398046511104 : ℚ) + (3574285418548013 / 2199023255552) / 2
        ≠ (3618963986279863 / 8796093022208) / 2 ∧
      (-2669544421978047 / 4398046511104 : ℚ) + (3574285418548013 / 2199023255552) / 2
        ≠ (portraitCanvas.canvasWidth / dprOr1 (some (21 / 8))) / 2 := by
  have hcw : portraitCanvas.canvasWidth = 1080 := rfl
  have hch : portraitCanvas.canvasHeight = 2400 := rfl
  have hd : dprOr1 (some (21 / 8)) = 21 / 8 := by norm_num [dprOr1]
  have hfw : firstFrame.width = 1920 := rfl
  have hfh : firstFrame.height = 1080 := rfl
  have e1 : roundDouble (1080 / (21 / 8)) = 3618963986279863 / 8796093022208 := by decide!
  have e2 : roundDouble (2400 / (21 / 8)) = 8042142191733029 / 8796093022208 := by decide!
  have e3 : roundDouble (3618963986279863 / 8796093022208 / 1920)
      = 1930114126015927 / 9007199254740992 := by decide!
  have e4 : roundDouble (8042142191733029 / 8796093022208 / 1080)
      = 7625142226235761 / 9007199254740992 := by decide!
  have e5 : max (1930114126015927 / 9007199254740992 : ℚ)
      (7625142226235761 / 9007199254740992) = 7625142226235761 / 9007199254740992 := by
    norm_num
  have e6 : roundDouble (3618963986279863 / 8796093022208 / 2)
      = 3618963986279863 / 17592186044416 := by decide!
  have e7 : roundDouble (1920 / 2) = 960 := by decide!
  have e8 : roundDouble (960 * (7625142226235761 / 9007199254740992))
      = 3574285418548013 / 4398046511104 := by decide!
  have e9 : roundDouble (3618963986279863 / 17592186044416 - 3574285418548013 / 4398046511104)
      = -2669544421978047 / 4398046511104 := by decide!
  have e10 : roundDouble (8042142191733029 / 8796093022208 / 2)
      = 8042142191733029 / 17592186044416 := by decide!
  have e11 : roundDouble (1080 / 2) = 540 := by decide!
  have e12 : roundDouble (540 * (7625142226235761 / 9007199254740992))
      = 8042142191733029 / 17592186044416 := by decide!
  have e13 : roundDouble (8042142191733029 / 17592186044416 - 8042142191733029 / 17592186044416)
      = 0 := by decide!
  have e14 : roundDouble (1920 * (7625142226235761 / 9007199254740992))
      = 3574285418548013 / 2199023255552 := by decide!
  have e15 : roundDouble (1080 * (7625142226235761 / 9007199254740992))
      = 8042142191733029 / 8796093022208 := by decide!
  refine ⟨portraitCanvas_image, rfl, by norm_num [firstFrame], by norm_num [firstFrame], ?_, ?_,
    by norm_num, ?_⟩
  · simp only [renderFrame, renderFrameIn,
      renderCallsIn_loaded roundDouble portraitCanvas (some (21 / 8)) 0 firstFrame
        portraitCanvas_image rfl,
      hcw, hch, hd, hfw, hfh, e1, e2, e3, e4, e5, e6, e7, e8, e9, e10, e11, e12, e13, e14, e15]
  · rw [hcw, hd, e1]
  · rw [hcw, hd]; norm_num

/-- C5, amended: for a loaded image of positive size `w x h`, `renderFrame`
makes exactly one call, a `drawImage` of that image, whose arguments are the
source's expressions evaluated in doubles from the logical size `W x H` (the
canvas backing size divided by the device pixel ratio, itself rounded):
`scale = max (W / w) (H / h)`, destination size `(w * scale, h * scale)`,
offsets `W / 2 - (w / 2) * scale` and `H / 2 - (h / 2) * scale`. Over exact
rational arithmetic the offsets are `W / 2 - (w * scale) / 2` and
`H / 2 - (h * scale) / 2` and the centre of the drawn rectangle is the centre
of the surface. The ratio used is the device pixel ratio when it is present
and not zero, else 1. -/
theorem renderFrame_cover_fit (p : Player) (dpr : Option ℚ) (index : Int) (img : Image)
    (himg : imageAt p.images index = some img) (hc : img.complete = true)
    (_hw : 0 < img.width) (_hh : 0 < img.height) :
    (∃ W H scale : ℚ,
      W = roundDouble (p.canvasWidth / dprOr1 dpr) ∧
      H = roundDouble (p.canvasHeight / dprOr1 dpr) ∧
      scale = max (roundDouble (W / img.width)) (roundDouble (H / img.height)) ∧
      renderFrame p dpr index =
        { state := p
          calls := [Call.drawImage img
            (roundDouble (roundDouble (W / 2) - roundDouble (roundDouble (img.width / 2) * scale)))
            (roundDouble (roundDouble (H / 2) - roundDouble (roundDouble (img.height / 2) * scale)))
            (roundDouble (img.width * scale)) (roundDouble (img.height * scale))]
          error := none }) ∧
    (∃ scale offsetX offsetY : ℚ,
      scale = max (p.canvasWidth / dprOr1 dpr / img.width)
        (p.canvasHeight / dprOr1 dpr / img.height) ∧
      offsetX = p.canvasWidth / dprOr1 dpr / 2 - (img.width * scale) / 2 ∧
      offsetY = p.canvasHeight / dprOr1 dpr / 2 - (img.height * scale) / 2 ∧
      renderFrameIn id p dpr index =
        { state := p
          calls := [Call.drawImage img offsetX offsetY (img.width * scale) (img.height * scale)]
          error := none } ∧
      offsetX + (img.width * scale) / 2 = p.canvasWidth / dprOr1 dpr / 2 ∧
      offsetY + (img.height * scale) / 2 = p.canvasHeight / dprOr1 dpr / 2) ∧
    (∀ d : ℚ, d ≠ 0 → dprOr1 (some d) = d) ∧ dprOr1 none = 1 ∧ dprOr1 (some 0) = 1 := by
  refine ⟨⟨_, _, _, rfl, rfl, rfl, ?_⟩, ⟨_, _, _, rfl, rfl, rfl, ?_, by ring, by ring⟩,
    dprOr1_some, rfl, by simp [dprOr1]⟩
  · simp only [renderFrame, renderFrameIn, renderCallsIn_loaded roundDouble p dpr index img himg hc]
  · simp only [renderFrameIn, renderCallsIn_loaded id p dpr index img himg hc, id_eq]
    congr 3 <;> ring

theorem renderFrame_cover_fit_witness :
    imageAt firstFrameLoaded.images 0 = some firstFrame ∧ firstFrame.complete = true ∧
      0 < firstFrame.width ∧ 0 < firstFrame.height ∧
      ∃ scale offsetX offsetY : ℚ,
        scale = max (firstFrameLoaded.canvasWidth / dprOr1 (some 2) / firstFrame.width)
          (firstFrameLoaded.canvasHeight / dprOr1 (some 2) / firstFrame.height) ∧
        offsetX = firstFrameLoaded.canvasWidth / dprOr1 (some 2) / 2
          - (firstFrame.width * scale) / 2 ∧
        offsetY = firstFrameLoaded.canvasHeight / dprOr1 (some 2) / 2
          - (firstFrame.height * scale) / 2 ∧
        renderFrameIn id firstFrameLoaded (some 2) 0 =
          { state := firstFrameLoaded
            calls := [Call.drawImage firstFrame offsetX offsetY
              (firstFrame.width * scale) (firstFrame.height * scale)]
            error := none } ∧
        offsetX + (firstFrame.width * scale) / 2
          = firstFrameLoaded.canvasWidth / dprOr1 (some 2) / 2 ∧
        offsetY + (firstFrame.height * scale) / 2
          = firstFrameLoaded.canvasHeight / dprOr1 (some 2) / 2 :=
  ⟨firstFrameLoaded_image, rfl, by norm_num [firstFrame], by norm_num [firstFrame],
    (renderFrame_cover_fit firstFrameLoaded (some 2) 0 firstFrame firstFrameLoaded_image rfl
      (by norm_num [firstFrame]) (by norm_num [firstFrame])).2.1⟩

/-- C6 as stated fails on the code, which computes in doubles: on a
1923 x 1080 canvas at device pixel ratio 1 with a loaded 1920 x 1080 image,
the one `drawImage` call has `x = 2 ^ (-43) > 0`, `dw = 1922.9999999999998`
and `dh = 1081.6875`, so the left offset is positive, the rectangle stops
short of the right edge, and it matches the surface in neither dimension. -/
theorem renderFrame_uncovered_in_doubles :
    imageAt wideCanvas.images 0 = some firstFrame ∧ firstFrame.complete = true ∧
      0 < firstFrame.width ∧ 0 < firstFrame.height ∧
      0 < wideCanvas.canvasWidth / dprOr1 (some 1) ∧
      0 < wideCanvas.canvasHeight / dprOr1 (some 1) ∧
      wideCanvas.canvasWidth / dprOr1 (some 1) = 1923 ∧
      wideCanvas.canvasHeight / dprOr1 (some 1) = 1080 ∧
      (renderFrame wideCanvas (some 1) 0).calls =
        [Call.drawImage firstFrame (1 / 8796093022208) (-27 / 32)
          (8457443440852991 / 4398046511104) (17307 / 16)] ∧
      ¬ ((1 / 8796093022208 : ℚ) ≤ 0) ∧
      ¬ ((1923 : ℚ) ≤ 1 / 8796093022208 + 8457443440852991 / 4398046511104) ∧
      (8457443440852991 / 4398046511104 : ℚ) ≠ 1923 ∧ (17307 / 16 : ℚ) ≠ 1080 := by
  have hcw : wideCanvas.canvasWidth = 1923 := rfl
  have hch : wideCanvas.canvasHeight = 1080 := rfl
  have hd : dprOr1 (some 1) = 1 := by norm_num [dprOr1]
  have hfw : firstFrame.width = 1920 := rfl
  have hfh : firstFrame.height = 1080 := rfl
  have e1 : roundDouble (1923 / 1) = 1923 := by decide!
  have e2 : roundDouble (1080 / 1) = 1080 := by decide!
  have e3 : roundDouble (1923 / 1920) = 2255318250894131 / 2251799813685248 := by decide!
  have e4 : roundDouble (1080 / 1080) = 1 := by decide!
  have e5 : max (2255318250894131 / 2251799813685248 : ℚ) 1
      = 2255318250894131 / 2251799813685248 := by
    norm_num
  have e6 : roundDouble (1923 / 2) = 1923 / 2 := by decide!
  have e7 : roundDouble (1920 / 2) = 960 := by decide!
  have e8 : roundDouble (960 * (2255318250894131 / 2251799813685248))
      = 8457443440852991 / 8796093022208 := by decide!
  have e9 : roundDouble (1923 / 2 - 8457443440852991 / 8796093022208)
      = 1 / 8796093022208 := by decide!
  have e10 : roundDouble (1080 / 2) = 540 := by decide!
  have e12 : roundDouble (540 * (2255318250894131 / 2251799813685248)) = 17307 / 32 := by
    decide!
  have e13 : roundDouble (540 - 17307 / 32) = -27 / 32 := by decide!
  have e14 : roundDouble (1920 * (2255318250894131 / 2251799813685248))
      = 8457443440852991 / 4398046511104 := by decide!
  have e15 : roundDouble (1080 * (2255318250894131 / 2251799813685248)) = 17307 / 16 := by
    decide!
  refine ⟨wideCanvas_image, rfl, by norm_num [firstFrame], by norm_num [firstFrame],
    by rw [hcw, hd]; norm_num, by rw [hch, hd]; norm_num, by rw [hcw, hd]; norm_num,
    by rw [hch, hd]; norm_num, ?_, by norm_num, by norm_num, by norm_num, by norm_num⟩
  simp only [renderFrame, renderFrameIn,
    renderCallsIn_loaded roundDouble wideCanvas (some 1) 0 firstFrame wideCanvas_image rfl,
    hcw, hch, hd, hfw, hfh, e1, e2, e3, e4, e5, e6, e7, e8, e9, e10, e12, e13, e14, e15]

/-- C6, amended: over exact rational arithmetic, for a loaded image of
positive size `w x h` and a surface of positive logical size `W x H` (the
canvas backing size divided by the device pixel ratio, 1 when it is missing
or zero), the one rectangle `renderFrame` draws covers the surface and keeps
the aspect ratio of the image: both offsets are at most 0, the rectangle
reaches at least to `W` and to `H`, its sides are in the ratio `w / h`, and
it matches the surface exactly in width or in height. -/
theorem renderFrame_covers_surface (p : Player) (dpr : Option ℚ) (index : Int) (img : Image)
    (himg : imageAt p.images index = some img) (hc : img.complete = true)
    (hw : 0 < img.width) (hh : 0 < img.height)
    (hW : 0 < p.canvasWidth / dprOr1 dpr) (_hH : 0 < p.canvasHeight / dprOr1 dpr) :
    (∃ x y dw dh : ℚ,
      (renderFrameIn id p dpr index).calls = [Call.drawImage img x y dw dh] ∧
      x ≤ 0 ∧ y ≤ 0 ∧
      p.canvasWidth / dprOr1 dpr ≤ x + dw ∧ p.canvasHeight / dprOr1 dpr ≤ y + dh ∧
      dw / dh = img.width / img.height ∧
      (dw = p.canvasWidth / dprOr1 dpr ∨ dh = p.canvasHeight / dprOr1 dpr)) ∧
    (∀ d : ℚ, d ≠ 0 → dprOr1 (some d) = d) ∧ dprOr1 none = 1 ∧ dprOr1 (some 0) = 1 := by
  refine ⟨?_, dprOr1_some, rfl, by simp [dprOr1]⟩
  set W := p.canvasWidth / dprOr1 dpr with hWdef
  set H := p.canvasHeight / dprOr1 dpr with hHdef
  set s := max (W / img.width) (H / img.height) with hs
  have hsW : W / img.width ≤ s := le_max_left _ _
  have hsH : H / img.height ≤ s := le_max_right _ _
  have hspos : 0 < s := lt_of_lt_of_le (div_pos hW hw) hsW
  have hdw : W ≤ img.width * s := by
    have := mul_le_mul_of_nonneg_left hsW hw.le
    rwa [mul_div_cancel₀ _ hw.ne'] at this
  have hdh : H ≤ img.height * s := by
    have := mul_le_mul_of_nonneg_left hsH hh.le
    rwa [mul_div_cancel₀ _ hh.ne'] at this
  refine ⟨W / 2 - img.width / 2 * s, H / 2 - img.height / 2 * s, img.width * s, img.height * s,
    ?_, ?_, ?_, ?_, ?_, ?_, ?_⟩
  · simp only [renderFrameIn, renderCallsIn_loaded id p dpr index img himg hc, id_eq]
  · linarith
  · linarith
  · linarith
  · linarith
  · rw [mul_div_mul_right _ _ hspos.ne']
  · rcases max_choice (W / img.width) (H / img.height) with h | h
    · left
      rw [hs, h, mul_div_cancel₀ _ hw.ne']
    · right
      rw [hs, h, mul_div_cancel₀ _ hh.ne']

theorem renderFrame_covers_surface_witness :
    imageAt firstFrameLoaded.images 0 = some firstFrame ∧ firstFrame.complete = true ∧
      0 < firstFrame.width ∧ 0 < firstFrame.height ∧
      0 < firstFrameLoaded.canvasWidth / dprOr1 (some 2) ∧
      0 < firstFrameLoaded.canvasHeight / dprOr1 (some 2) ∧
      ∃ x y dw dh : ℚ,
        (renderFrameIn id firstFrameLoaded (some 2) 0).calls
          = [Call.drawImage firstFrame x y dw dh] ∧
        x ≤ 0 ∧ y ≤ 0 ∧
        firstFrameLoaded.canvasWidth / dprOr1 (some 2) ≤ x + dw ∧
        firstFrameLoaded.canvasHeight / dprOr1 (some 2) ≤ y + dh ∧
        dw / dh = firstFrame.width / firstFrame.height ∧
        (dw = firstFrameLoaded.canvasWidth / dprOr1 (some 2) ∨
          dh = firstFrameLoaded.canvasHeight / dprOr1 (some 2)) :=
  have hW : 0 < firstFrameLoaded.canvasWidth / dprOr1 (some 2) := by
    have h : firstFrameLoaded.canvasWidth = 1600 := rfl
    rw [h]; norm_num [dprOr1]
  have hH : 0 < firstFrameLoaded.canvasHeight / dprOr1 (some 2) := by
    have h : firstFrameLoaded.canvasHeight = 1200 := rfl
    rw [h]; norm_num [dprOr1]
  ⟨firstFrameLoaded_image, rfl, by norm_num [firstFrame], by norm_num [firstFrame], hW, hH,
    (renderFrame_covers_surface firstFrameLoaded (some 2) 0 firstFrame firstFrameLoaded_image rfl
      (by norm_num [firstFrame]) (by norm_num [firstFrame]) hW hH).1⟩

/-! ## Preloading -/

theorem preload_foldl (l : List Nat) (q : Player) :
    l.foldl (fun q i => { q with images := q.images ++ [newImage (framePath q i)] }) q
      = { q with images := q.images ++ l.map fun i => newImage (framePath q i) } := by
  induction l generalizing q with
  | nil => simp
  | cons a l ih =>
    rw [List.foldl_cons, ih]
    simp [framePath, pad]

theorem preloadImages_eq (p : Player) :
    preloadImages p =
      { p with images := p.images ++ (List.range' 1 p.frameCount).map fun i =>
          newImage (framePath p i) } :=
  preload_foldl _ p

theorem construct_images (cw ch : ℚ) :
    (construct cw ch).images = (List.range' 1 40).map fun i =>
      newImage ("hero/seq/ezgif-frame-" ++ padStart (toString i) 3 '0' ++ ".jpg") := by
  simp [construct, preloadImages_eq, fields, framePath, pad]

theorem construct_pad (cw ch : ℚ) (n : Nat) :
    pad (construct cw ch) n = padStart (toString n) 3 '0' := by
  simp [construct, preloadImages_eq, fields, pad]

theorem construct_framePath (cw ch : ℚ) (n : Nat) :
    framePath (construct cw ch) n
      = "hero/seq/ezgif-frame-" ++ padStart (toString n) 3 '0' ++ ".jpg" := by
  simp [construct, preloadImages_eq, fields, framePath, pad]

theorem pad_eq_zeroPadded (p : Player) (n : Nat) : pad p n = zeroPadded p.padLength n := by
  have h : toString n = String.mk (Nat.toDigits 10 n) := rfl
  simp only [pad, padStart, zeroPadded, h]
  rfl

/-- C8: `preloadImages` appends one image per index `1 .. frameCount`, in
order, the one for index `i` with source `basePath ++ pad(i) ++ extension`,
where `pad(i)` is the decimal numeral of `i` left-padded with zeros to
`padLength`. For the constructed player (40 frames, width 3) this gives
exactly 40 images; for `1 ≤ i ≤ 40` the padded index has length 3, consists
of digits and denotes `i`; the paths run from `hero/seq/ezgif-frame-001.jpg`
to `hero/seq/ezgif-frame-040.jpg`, are pairwise distinct, and `images[k]`
exists for every frame index `k` in `0 .. 39`, holding the path of frame
`k + 1`. -/
theorem preloadImages_paths (p : Player) (cw ch : ℚ) :
    (preloadImages p).images
        = p.images ++ (List.range' 1 p.frameCount).map
            (fun i => newImage (p.basePath ++ pad p i ++ p.extension)) ∧
      (∀ n : Nat, pad p n = zeroPadded p.padLength n) ∧
      (construct cw ch).frameCount = 40 ∧
      (construct cw ch).padLength = 3 ∧
      (construct cw ch).images.length = (construct cw ch).frameCount ∧
      (construct cw ch).images
        = (List.range' 1 40).map (fun i => newImage (framePath (construct cw ch) i)) ∧
      (∀ i : Fin 40,
        (pad (construct cw ch) (i.val + 1)).length = 3 ∧
          (pad (construct cw ch) (i.val + 1)).data.all Char.isDigit = true ∧
          numeralValue (pad (construct cw ch) (i.val + 1)) = i.val + 1) ∧
      ((construct cw ch).images.map Image.src).head? = some "hero/seq/ezgif-frame-001.jpg" ∧
      ((construct cw ch).images.map Image.src).getLast? = some "hero/seq/ezgif-frame-040.jpg" ∧
      ((construct cw ch).images.map Image.src).Nodup ∧
      (∀ k : Fin 40,
        imageAt (construct cw ch).images (k.val : Int)
          = some (newImage (framePath (construct cw ch) (k.val + 1)))) := by
  have himg := construct_images cw ch
  refine ⟨?_, pad_eq_zeroPadded p, rfl, rfl, ?_, ?_, ?_, ?_, ?_, ?_, ?_⟩
  · rw [preloadImages_eq]; rfl
  · rw [himg]; rfl
  · rw [himg]
    apply List.map_congr_left
    intro i _
    rw [construct_framePath]
  · intro i
    rw [construct_pad]
    revert i
    decide
  · rw [himg]; decide
  · rw [himg]; decide
  · rw [himg]; decide
  · intro k
    rw [imageAt_ofNat, himg, construct_framePath]
    revert k
    decide

/-! ## The loop -/

theorem loop_not_playing (p : Player) (dpr : Option ℚ) (timestamp : Option ℚ)
    (h : p.isPlaying = false) :
    loop p dpr timestamp = { state := p, calls := [], error := none } := by
  simp [loop, h]

theorem loop_undefined (p : Player) (dpr : Option ℚ) (h : p.isPlaying = true) :
    loop p dpr none = { state := p, calls := [Call.requestAnimationFrame], error := none } := by
  simp [loop, h]

theorem loop_wait (p : Player) (dpr : Option ℚ) (t : ℚ) (h : p.isPlaying = true)
    (hd : t - p.lastFrameTime ≤ p.frameInterval) :
    loop p dpr (some t)
      = { state := p, calls := [Call.requestAnimationFrame], error := none } := by
  simp [loop, h, not_lt.mpr hd]

theorem loop_advance (p : Player) (dpr : Option ℚ) (t : ℚ) (h : p.isPlaying = true)
    (hd : p.frameInterval < t - p.lastFrameTime) :
    loop p dpr (some t) =
      { state := { p with
          currentFrame := (p.currentFrame + 1) % p.frameCount
          lastFrameTime := t - jsRem (t - p.lastFrameTime) p.frameInterval }
        calls := Call.renderFrame (((p.currentFrame + 1) % p.frameCount : Nat) : Int) ::
          (renderFrame { p with currentFrame := (p.currentFrame + 1) % p.frameCount } dpr
            (((p.currentFrame + 1) % p.frameCount : Nat) : Int)).calls ++
          [Call.requestAnimationFrame]
        error := none } := by
  simp only [loop, h, Bool.not_true, Bool.false_eq_true, if_false, gt_iff_lt, hd, if_true,
    renderFrame_error, renderFrame_state]

theorem visited_append (a b : List Call) : visited (a ++ b) = visited a ++ visited b := by
  simp [visited, List.filterMap_append]

theorem requested_append (a b : List Call) : requested (a ++ b) = requested a + requested b := by
  simp [requested, List.count_append]

theorem loop_advance_visited (p : Player) (dpr : Option ℚ) (t : ℚ) (h : p.isPlaying = true)
    (hd : p.frameInterval < t - p.lastFrameTime) :
    visited (loop p dpr (some t)).calls = [(((p.currentFrame + 1) % p.frameCount : Nat) : Int)] := by
  rw [loop_advance p dpr t h hd]
  have hv := renderFrame_visited { p with currentFrame := (p.currentFrame + 1) % p.frameCount }
    dpr (((p.currentFrame + 1) % p.frameCount : Nat) : Int)
  have hcons : ∀ (i : Int) (l : List Call),
      visited (Call.renderFrame i :: l) = i :: visited l := by
    intro i l; simp [visited]
  simp only [hcons, visited_append, hv]
  simp [visited]

theorem loop_advance_requested (p : Player) (dpr : Option ℚ) (t : ℚ) (h : p.isPlaying = true)
    (hd : p.frameInterval < t - p.lastFrameTime) :
    requested (loop p dpr (some t)).calls = 1 := by
  rw [loop_advance p dpr t h hd]
  have hr := renderFrame_requested { p with currentFrame := (p.currentFrame + 1) % p.frameCount }
    dpr (((p.currentFrame + 1) % p.frameCount : Nat) : Int)
  have hcons : ∀ (i : Int) (l : List Call),
      requested (Call.renderFrame i :: l) = requested l := by
    intro i l; simp [requested]
  simp only [hcons, requested_append, hr]
  simp [requested]

/-- What one run of `loop` with a timestamp does to the fields, whichever
branch it takes. -/
theorem loop_cases (p : Player) (dpr : Option ℚ) (t : ℚ) :
    (requested (loop p dpr (some t)).calls = 0 ∧ (loop p dpr (some t)).state = p ∧
        visited (loop p dpr (some t)).calls = [] ∧ p.isPlaying = false) ∨
    (requested (loop p dpr (some t)).calls = 1 ∧ (loop p dpr (some t)).state = p ∧
        visited (loop p dpr (some t)).calls = [] ∧ p.isPlaying = true ∧
        t - p.lastFrameTime ≤ p.frameInterval) ∨
    (requested (loop p dpr (some t)).calls = 1 ∧
        (loop p dpr (some t)).state = { p with
          currentFrame := (p.currentFrame + 1) % p.frameCount
          lastFrameTime := t - jsRem (t - p.lastFrameTime) p.frameInterval } ∧
        visited (loop p dpr (some t)).calls = [(((p.currentFrame + 1) % p.frameCount : Nat) : Int)] ∧
        p.isPlaying = true ∧ p.frameInterval < t - p.lastFrameTime) := by
  by_cases h : p.isPlaying = true
  · by_cases hd : p.frameInterval < t - p.lastFrameTime
    · right; right
      refine ⟨loop_advance_requested p dpr t h hd, ?_, loop_advance_visited p dpr t h hd, h, hd⟩
      rw [loop_advance p dpr t h hd]
    · right; left
      rw [loop_wait p dpr t h (not_lt.mp hd)]
      exact ⟨rfl, rfl, rfl, h, not_lt.mp hd⟩
  · left
    have hf : p.isPlaying = false := Bool.not_eq_true _ ▸ h
    rw [loop_not_playing p dpr _ hf]
    exact ⟨rfl, rfl, rfl, hf⟩

theorem ticks_nil (p : Player) (dpr : Option ℚ) :
    ticks p dpr [] = { state := p, calls := [], error := none } := rfl

theorem ticks_cons_stop (p : Player) (dpr : Option ℚ) (t : ℚ) (ts : List ℚ)
    (h : requested (loop p dpr (some t)).calls = 0) :
    ticks p dpr (t :: ts) = loop p dpr (some t) := by
  simp [ticks, h]

theorem ticks_cons_go (p : Player) (dpr : Option ℚ) (t : ℚ) (ts : List ℚ)
    (h : requested (loop p dpr (some t)).calls = 1) :
    ticks p dpr (t :: ts) =
      { state := (ticks (loop p dpr (some t)).state dpr ts).state
        calls := (loop p dpr (some t)).calls ++ (ticks (loop p dpr (some t)).state dpr ts).calls
        error := (ticks (loop p dpr (some t)).state dpr ts).error } := by
  simp [ticks, h]

/-- Frame indices along a chain of callbacks, for 40 frames. -/
theorem ticks_frames (dpr : Option ℚ) (ts : List ℚ) :
    ∀ p : Player, p.frameCount = 40 → p.currentFrame < 40 →
      (ticks p dpr ts).state.currentFrame
          = (p.currentFrame + (visited (ticks p dpr ts).calls).length) % 40 ∧
        visited (ticks p dpr ts).calls
          = (List.range (visited (ticks p dpr ts).calls).length).map
              fun j => (((p.currentFrame + (j + 1)) % 40 : Nat) : Int) := by
  induction ts with
  | nil =>
    intro p _ hi
    simp [ticks_nil, visited, Nat.mod_eq_of_lt hi]
  | cons t ts ih =>
    intro p hfc hi
    rcases loop_cases p dpr t with ⟨hr, hs, hv, -⟩ | ⟨hr, hs, hv, -, -⟩ | ⟨hr, hs, hv, -, -⟩
    · rw [ticks_cons_stop p dpr t ts hr, hs, hv]
      simp [Nat.mod_eq_of_lt hi]
    · rw [ticks_cons_go p dpr t ts hr, hs]
      simp only [visited_append, hv, List.nil_append]
      exact ih p hfc hi
    · rw [ticks_cons_go p dpr t ts hr, hs]
      simp only [visited_append, hv, hfc]
      have hi2 : (p.currentFrame + 1) % 40 < 40 := Nat.mod_lt _ (by norm_num)
      obtain ⟨h1, h2⟩ := ih { p with
          currentFrame := (p.currentFrame + 1) % 40
          lastFrameTime := t - jsRem (t - p.lastFrameTime) p.frameInterval } hfc hi2
      simp only [hfc] at h1 h2 ⊢
      constructor
      · rw [h1]
        simp only [List.singleton_append, List.length_cons]
        omega
      · simp only [List.singleton_append, List.length_cons]
        rw [List.range_succ_eq_map, List.map_cons, List.map_map]
        congr 1
        conv_lhs => rw [h2]
        apply List.map_congr_left
        intro j _
        simp only [Function.comp, Nat.succ_eq_add_one]
        congr 1
        omega

theorem truncQ_one (q : ℚ) (h1 : 1 ≤ q) (h2 : q < 2) : truncQ q = 1 := by
  have h0 : (0 : ℚ) ≤ q := le_trans zero_le_one h1
  simp only [truncQ, h0, if_true]
  rw [Int.floor_eq_iff]
  constructor
  · exact_mod_cast h1
  · norm_num
    linarith

theorem jsRem_one (a b : ℚ) (hb : 0 < b) (h1 : b < a) (h2 : a < 2 * b) : jsRem a b = a - b := by
  have hq : truncQ (a / b) = 1 := by
    apply truncQ_one
    · rw [le_div_iff₀ hb]; linarith
    · rw [div_lt_iff₀ hb]; linarith
  simp [jsRem, hq]

theorem jsRem_nonneg (a b : ℚ) (ha : 0 ≤ a) (hb : 0 < b) : 0 ≤ jsRem a b := by
  have h0 : (0 : ℚ) ≤ a / b := div_nonneg ha hb.le
  simp only [jsRem, truncQ, h0, if_true]
  have hfl : ((⌊a / b⌋ : ℤ) : ℚ) ≤ a / b := Int.floor_le _
  have := mul_le_mul_of_nonneg_left hfl hb.le
  rw [mul_div_cancel₀ _ hb.ne'] at this
  linarith

/-- Every number of advances is reached by some stream of timestamps. -/
theorem advancing_stream (dpr : Option ℚ) (k : Nat) :
    ∀ p : Player, p.isPlaying = true → 0 < p.frameInterval →
      ∃ ts : List ℚ, ts.length = k ∧ (visited (ticks p dpr ts).calls).length = k := by
  induction k with
  | zero =>
    intro p _ _
    exact ⟨[], rfl, rfl⟩
  | succ k ih =>
    intro p hp hI
    have hd : p.frameInterval < (p.lastFrameTime + p.frameInterval + 1) - p.lastFrameTime := by
      linarith
    obtain ⟨ts, hlen, hts⟩ := ih
      { p with
        currentFrame := (p.currentFrame + 1) % p.frameCount
        lastFrameTime := (p.lastFrameTime + p.frameInterval + 1)
          - jsRem ((p.lastFrameTime + p.frameInterval + 1) - p.lastFrameTime) p.frameInterval }
      hp hI
    refine ⟨(p.lastFrameTime + p.frameInterval + 1) :: ts, by simp [hlen], ?_⟩
    rw [ticks_cons_go p dpr _ ts (loop_advance_requested p dpr _ hp hd)]
    simp only [visited_append, loop_advance_visited p dpr _ hp hd, List.singleton_append,
      List.length_cons]
    rw [loop_advance p dpr _ hp hd]
    simp only [hts]

/-- C1: with 40 frames and a starting index `i` below 40, a chain of `loop`
callbacks that makes `k` frame advances leaves `currentFrame = (i + k) % 40`
and has rendered the indices `(i + 1) % 40, ..., (i + k) % 40` in this order.
Hence 40 advances visit 40 pairwise distinct indices, all in `[0, 39]`, and
finish at `i`, while fewer than 40 (and at least one) never finish at `i`.
Every number of advances is reached by some stream of timestamps while
playing. -/
theorem loop_cycles_through_frames (p : Player) (dpr : Option ℚ)
    (hfc : p.frameCount = 40) (hi : p.currentFrame < p.frameCount) :
    (∀ ts : List ℚ,
      (ticks p dpr ts).state.currentFrame
          = (p.currentFrame + (visited (ticks p dpr ts).calls).length) % 40 ∧
        visited (ticks p dpr ts).calls
          = (List.range (visited (ticks p dpr ts).calls).length).map
              fun j => (((p.currentFrame + (j + 1)) % 40 : Nat) : Int)) ∧
    (∀ ts : List ℚ, (visited (ticks p dpr ts).calls).length = 40 →
      (visited (ticks p dpr ts).calls).Nodup ∧
        (∀ v ∈ visited (ticks p dpr ts).calls, 0 ≤ v ∧ v ≤ 39) ∧
        (ticks p dpr ts).state.currentFrame = p.currentFrame) ∧
    (∀ ts : List ℚ, 0 < (visited (ticks p dpr ts).calls).length →
      (visited (ticks p dpr ts).calls).length < 40 →
      (ticks p dpr ts).state.currentFrame ≠ p.currentFrame) ∧
    (p.isPlaying = true → 0 < p.frameInterval →
      ∀ k : Nat, ∃ ts : List ℚ, ts.length = k ∧ (visited (ticks p dpr ts).calls).length = k) := by
  rw [hfc] at hi
  refine ⟨fun ts => ticks_frames dpr ts p hfc hi, ?_, ?_, ?_⟩
  · intro ts hlen
    obtain ⟨h1, h2⟩ := ticks_frames dpr ts p hfc hi
    rw [hlen] at h1 h2
    refine ⟨?_, ?_, ?_⟩
    · rw [h2]
      apply List.Nodup.map_on _ (List.nodup_range 40)
      intro a ha b hb hab
      rw [List.mem_range] at ha hb
      have := Int.ofNat.inj hab
      omega
    · intro v hv
      rw [h2, List.mem_map] at hv
      obtain ⟨j, -, rfl⟩ := hv
      omega
    · rw [h1]; omega
  · intro ts hpos hlt
    obtain ⟨h1, -⟩ := ticks_frames dpr ts p hfc hi
    rw [h1]; omega
  · intro hp hI k
    exact advancing_stream dpr k p hp hI

theorem playingFromStart_frameCount : playingFromStart.frameCount = 40 := rfl

theorem playingFromStart_currentFrame : playingFromStart.currentFrame = 0 := rfl

theorem loop_cycles_through_frames_witness :
    playingFromStart.frameCount = 40 ∧ playingFromStart.currentFrame < playingFromStart.frameCount ∧
    ((∀ ts : List ℚ,
      (ticks playingFromStart none ts).state.currentFrame
          = (playingFromStart.currentFrame
              + (visited (ticks playingFromStart none ts).calls).length) % 40 ∧
        visited (ticks playingFromStart none ts).calls
          = (List.range (visited (ticks playingFromStart none ts).calls).length).map
              fun j => (((playingFromStart.currentFrame + (j + 1)) % 40 : Nat) : Int)) ∧
    (∀ ts : List ℚ, (visited (ticks playingFromStart none ts).calls).length = 40 →
      (visited (ticks playingFromStart none ts).calls).Nodup ∧
        (∀ v ∈ visited (ticks playingFromStart none ts).calls, 0 ≤ v ∧ v ≤ 39) ∧
        (ticks playingFromStart none ts).state.currentFrame = playingFromStart.currentFrame) ∧
    (∀ ts : List ℚ, 0 < (visited (ticks playingFromStart none ts).calls).length →
      (visited (ticks playingFromStart none ts).calls).length < 40 →
      (ticks playingFromStart none ts).state.currentFrame ≠ playingFromStart.currentFrame) ∧
    (playingFromStart.isPlaying = true → 0 < playingFromStart.frameInterval →
      ∀ k : Nat, ∃ ts : List ℚ, ts.length = k ∧
        (visited (ticks playingFromStart none ts).calls).length = k)) :=
  ⟨rfl, by decide, loop_cycles_through_frames playingFromStart none rfl (by decide)⟩

/-! ## Playback rate -/

/-- One callback of a chain whose timestamps are less than one interval apart:
the last-frame time stays on the grid `L + n * I` and within one interval
behind the timestamp. -/
theorem loop_rate_step (p : Player) (dpr : Option ℚ) (prev t : ℚ)
    (hp : p.isPlaying = true) (hI : 0 < p.frameInterval)
    (h0 : 0 ≤ prev - p.lastFrameTime) (h1 : prev - p.lastFrameTime ≤ p.frameInterval)
    (hle : prev ≤ t) (hgap : t - prev < p.frameInterval) :
    requested (loop p dpr (some t)).calls = 1 ∧
      (loop p dpr (some t)).state.isPlaying = true ∧
      (loop p dpr (some t)).state.frameInterval = p.frameInterval ∧
      (loop p dpr (some t)).state.lastFrameTime
        = p.lastFrameTime + ((visited (loop p dpr (some t)).calls).length : ℚ) * p.frameInterval ∧
      0 ≤ t - (loop p dpr (some t)).state.lastFrameTime ∧
      t - (loop p dpr (some t)).state.lastFrameTime ≤ p.frameInterval := by
  rcases loop_cases p dpr t with ⟨-, -, -, hf⟩ | ⟨hr, hs, hv, -, hd⟩ | ⟨hr, hs, hv, -, hd⟩
  · rw [hp] at hf
    exact absurd hf (by decide)
  · rw [hs, hv, hr]
    refine ⟨rfl, hp, rfl, by simp, by linarith, hd⟩
  · have h4 := jsRem_one (t - p.lastFrameTime) p.frameInterval hI hd (by linarith)
    rw [hs, hv, hr]
    refine ⟨rfl, hp, rfl, ?_, ?_, ?_⟩
    · simp only [h4, List.length_singleton, Nat.cast_one]; ring
    · simp only [h4]; linarith
    · simp only [h4]; linarith

/-- A chain of callbacks whose timestamps are less than one interval apart,
started within one interval of the last-frame time. -/
theorem ticks_rate (dpr : Option ℚ) (I : ℚ) (hI : 0 < I) (ts : List ℚ) :
    ∀ (p : Player) (prev t : ℚ), p.isPlaying = true → p.frameInterval = I →
      0 ≤ prev - p.lastFrameTime → prev - p.lastFrameTime ≤ I →
      List.Chain (fun a b => a ≤ b ∧ b - a < I) prev (ts ++ [t]) →
      (ticks p dpr (ts ++ [t])).state.lastFrameTime
          = p.lastFrameTime + ((visited (ticks p dpr (ts ++ [t])).calls).length : ℚ) * I ∧
        0 ≤ t - (ticks p dpr (ts ++ [t])).state.lastFrameTime ∧
        t - (ticks p dpr (ts ++ [t])).state.lastFrameTime ≤ I ∧
        (ticks p dpr (ts ++ [t])).state.isPlaying = true ∧
        requested (ticks p dpr (ts ++ [t])).calls = ts.length + 1 := by
  induction ts with
  | nil =>
    intro p prev t hp hfi h0 h1 hch
    rw [List.nil_append, List.chain_cons] at hch
    obtain ⟨⟨hle, hgap⟩, -⟩ := hch
    subst hfi
    obtain ⟨hr, hpl, -, hL, hlo, hhi⟩ := loop_rate_step p dpr prev t hp hI h0 h1 hle hgap
    rw [List.nil_append, ticks_cons_go p dpr t [] hr]
    simp only [ticks_nil, List.append_nil, List.length_nil, Nat.zero_add]
    exact ⟨hL, hlo, hhi, hpl, hr⟩
  | cons a ts ih =>
    intro p prev t hp hfi h0 h1 hch
    rw [List.cons_append, List.chain_cons] at hch
    obtain ⟨⟨hle, hgap⟩, hch2⟩ := hch
    subst hfi
    obtain ⟨hr, hpl, hfi2, hL, hlo, hhi⟩ := loop_rate_step p dpr prev a hp hI h0 h1 hle hgap
    obtain ⟨k1, k2, k3, k4, k5⟩ := ih (loop p dpr (some a)).state a t hpl hfi2 hlo hhi hch2
    rw [List.cons_append, ticks_cons_go p dpr a (ts ++ [t]) hr]
    simp only [visited_append, requested_append, List.length_append, Nat.cast_add,
      List.length_cons]
    refine ⟨?_, k2, k3, k4, ?_⟩
    · rw [k1, hL]; ring
    · rw [k5, hr]; ring

/-- C2: over exact rationals, with `frameInterval = 1000 / 24`: after `play()`
at time `t0` on a player that was not playing, along every stream of `loop`
callbacks whose timestamps do not decrease, start at or after `t0` and are
pairwise (and from `t0`) less than one interval apart, after the callback with
timestamp `t` the number `n` of frame advances since `play()` satisfies
`(t - t0) / I - 1 ≤ n ≤ (t - t0) / I` and `lastFrameTime = t0 + n * I`; the
player is still playing and every callback has requested the next one. -/
theorem playback_keeps_nominal_rate (p : Player) (dpr : Option ℚ) (t0 : ℚ) (ts : List ℚ) (t : ℚ)
    (hnp : p.isPlaying = false) (hfi : p.frameInterval = 1000 / 24)
    (hch : List.Chain (fun a b => a ≤ b ∧ b - a < 1000 / 24) t0 (ts ++ [t])) :
    (t - t0) / (1000 / 24) - 1
        ≤ ((visited (ticks (play p dpr t0).state dpr (ts ++ [t])).calls).length : ℚ) ∧
      ((visited (ticks (play p dpr t0).state dpr (ts ++ [t])).calls).length : ℚ)
        ≤ (t - t0) / (1000 / 24) ∧
      (ticks (play p dpr t0).state dpr (ts ++ [t])).state.lastFrameTime
        = t0 + ((visited (ticks (play p dpr t0).state dpr (ts ++ [t])).calls).length : ℚ)
            * (1000 / 24) ∧
      (ticks (play p dpr t0).state dpr (ts ++ [t])).state.isPlaying = true ∧
      requested (ticks (play p dpr t0).state dpr (ts ++ [t])).calls = ts.length + 1 := by
  have hplay : (play p dpr t0).state = { p with isPlaying := true, lastFrameTime := t0 } := by
    simp [play, hnp, loop]
  have hI : (0 : ℚ) < 1000 / 24 := by norm_num
  obtain ⟨k1, k2, k3, k4, k5⟩ := ticks_rate dpr (1000 / 24) hI ts (play p dpr t0).state t0 t
    (by rw [hplay]) (by rw [hplay]; exact hfi) (by rw [hplay]; simp) (by rw [hplay]; simp; norm_num)
    hch
  have hL : (play p dpr t0).state.lastFrameTime = t0 := by rw [hplay]
  rw [hL] at k1
  refine ⟨?_, ?_, k1, k4, k5⟩
  · rw [sub_le_iff_le_add, div_le_iff₀ hI]
    rw [k1] at k3
    linarith
  · rw [le_div_iff₀ hI]
    rw [k1] at k2
    linarith

theorem playback_keeps_nominal_rate_witness :
    (construct 300 150).isPlaying = false ∧ (construct 300 150).frameInterval = 1000 / 24 ∧
      List.Chain (fun a b : ℚ => a ≤ b ∧ b - a < 1000 / 24) 0 ([30, 60] ++ [90]) ∧
      ((90 : ℚ) - 0) / (1000 / 24) - 1
          ≤ ((visited (ticks (play (construct 300 150) none 0).state none
              ([30, 60] ++ [90])).calls).length : ℚ) ∧
        ((visited (ticks (play (construct 300 150) none 0).state none
              ([30, 60] ++ [90])).calls).length : ℚ)
          ≤ ((90 : ℚ) - 0) / (1000 / 24) ∧
        (ticks (play (construct 300 150) none 0).state none ([30, 60] ++ [90])).state.lastFrameTime
          = 0 + ((visited (ticks (play (construct 300 150) none 0).state none
              ([30, 60] ++ [90])).calls).length : ℚ) * (1000 / 24) ∧
        (ticks (play (construct 300 150) none 0).state none
            ([30, 60] ++ [90])).state.isPlaying = true ∧
        requested (ticks (play (construct 300 150) none 0).state none ([30, 60] ++ [90])).calls
          = [(30 : ℚ), 60].length + 1 :=
  have hch : List.Chain (fun a b : ℚ => a ≤ b ∧ b - a < 1000 / 24) 0 ([30, 60] ++ [90]) := by
    norm_num [List.chain_cons]
  ⟨rfl, rfl, hch, playback_keeps_nominal_rate (construct 300 150) none 0 [30, 60] 90 rfl rfl hch⟩

/-! ## play, pause and the visibility observer -/

theorem play_playing (p : Player) (dpr : Option ℚ) (now : ℚ) (h : p.isPlaying = true) :
    play p dpr now = { state := p, calls := [], error := none } := by
  simp [play, h]

theorem play_not_playing (p : Player) (dpr : Option ℚ) (now : ℚ) (h : p.isPlaying = false) :
    play p dpr now =
      { state := { p with isPlaying := true, lastFrameTime := now }
        calls := [Call.loop none, Call.requestAnimationFrame]
        error := none } := by
  simp [play, h, loop]

theorem play_isPlaying (p : Player) (dpr : Option ℚ) (now : ℚ) :
    (play p dpr now).state.isPlaying = true := by
  by_cases h : p.isPlaying = true
  · rw [play_playing p dpr now h]; exact h
  · rw [play_not_playing p dpr now (Bool.not_eq_true _ ▸ h)]

/-- C3: `play()` on a player that is already playing changes no field, calls
nothing (no `loop`, no `requestAnimationFrame`) and raises nothing. From any
state, a second `play()` right after a first one is such a call: the state is
that after the first, no call is made, and on the page `play(); play()` leaves
the same player and the same number of pending callbacks as one `play()`. -/
theorem play_idempotent (p : Player) (dpr : Option ℚ) (now now2 : ℚ) :
    (p.isPlaying = true → play p dpr now = { state := p, calls := [], error := none }) ∧
      play (play p dpr now).state dpr now2
        = { state := (play p dpr now).state, calls := [], error := none } ∧
      (∀ s : Page, Page.run dpr s [Event.play now, Event.play now2]
        = Page.run dpr s [Event.play now]) := by
  refine ⟨play_playing p dpr now, play_playing _ dpr now2 (play_isPlaying p dpr now), ?_⟩
  intro s
  simp [Page.run, Page.step, play_playing _ dpr now2 (play_isPlaying s.player dpr now), requested]

theorem play_idempotent_witness :
    playingFromStart.isPlaying = true ∧
      play playingFromStart none 10 = { state := playingFromStart, calls := [], error := none } :=
  ⟨rfl, (play_idempotent playingFromStart none 10 20).1 rfl⟩

theorem onEntry_isPlaying (p : Player) (dpr : Option ℚ) (entry : Entry) :
    (onEntry p dpr entry).state.isPlaying = entry.isIntersecting := by
  by_cases h : entry.isIntersecting = true
  · simp [onEntry, h, play_isPlaying]
  · have hf : entry.isIntersecting = false := Bool.not_eq_true _ ▸ h
    simp [onEntry, hf, pause]

theorem onEntry_error (p : Player) (dpr : Option ℚ) (entry : Entry) :
    (onEntry p dpr entry).error = none := by
  by_cases h : entry.isIntersecting = true
  · by_cases hp : p.isPlaying = true
    · simp [onEntry, h, play_playing p dpr _ hp]
    · simp [onEntry, h, play_not_playing p dpr _ (Bool.not_eq_true _ ▸ hp)]
  · have hf : entry.isIntersecting = false := Bool.not_eq_true _ ▸ h
    simp [onEntry, hf, pause]

theorem observerCallback_cons (p : Player) (dpr : Option ℚ) (entry : Entry) (rest : List Entry) :
    observerCallback p dpr (entry :: rest) =
      { state := (observerCallback (onEntry p dpr entry).state dpr rest).state
        calls := (onEntry p dpr entry).calls
          ++ (observerCallback (onEntry p dpr entry).state dpr rest).calls
        error := (observerCallback (onEntry p dpr entry).state dpr rest).error } := by
  simp [observerCallback, onEntry_error]

theorem observerCallback_last (dpr : Option ℚ) (entries : List Entry) (entry : Entry) :
    ∀ p : Player,
      (observerCallback p dpr (entries ++ [entry])).state.isPlaying = entry.isIntersecting := by
  induction entries with
  | nil =>
    intro p
    rw [List.nil_append, observerCallback_cons]
    simp [observerCallback, onEntry_isPlaying]
  | cons e entries ih =>
    intro p
    rw [List.cons_append, observerCallback_cons]
    exact ih _

/-- C7: handling an entry with `isIntersecting = true` leaves `isPlaying = true`
(from a not-playing state it does so by calling `play()`, which starts the
loop), handling one with `isIntersecting = false` leaves `isPlaying = false`,
and after a batch of entries `isPlaying` is the `isIntersecting` of the last
one. A `loop` callback delivered while `isPlaying = false` changes no field (so
neither `currentFrame` nor `lastFrameTime`), makes no call (no drawing, no
further `requestAnimationFrame`) and raises nothing. -/
theorem visibility_gating (p : Player) (dpr : Option ℚ) (timestamp : Option ℚ)
    (hnp : p.isPlaying = false) :
    (∀ entry : Entry, entry.isIntersecting = true →
      onEntry p dpr entry =
        { state := { p with isPlaying := true, lastFrameTime := entry.now }
          calls := [Call.play, Call.loop none, Call.requestAnimationFrame]
          error := none }) ∧
    (∀ (q : Player) (entry : Entry), entry.isIntersecting = false →
      onEntry q dpr entry =
        { state := { q with isPlaying := false }, calls := [Call.pause], error := none }) ∧
    (∀ (q : Player) (entry : Entry),
      (onEntry q dpr entry).state.isPlaying = entry.isIntersecting) ∧
    (∀ (q : Player) (entries : List Entry) (entry : Entry),
      (observerCallback q dpr (entries ++ [entry])).state.isPlaying = entry.isIntersecting) ∧
    loop p dpr timestamp = { state := p, calls := [], error := none } := by
  refine ⟨?_, ?_, fun q entry => onEntry_isPlaying q dpr entry,
    fun q entries entry => observerCallback_last dpr entries entry q,
    loop_not_playing p dpr timestamp hnp⟩
  · intro entry h
    simp [onEntry, h, play_not_playing p dpr _ hnp]
  · intro q entry h
    simp [onEntry, h, pause]

theorem visibility_gating_witness :
    (construct 300 150).isPlaying = false ∧
      loop (construct 300 150) none (some 100)
        = { state := construct 300 150, calls := [], error := none } :=
  ⟨rfl, (visibility_gating (construct 300 150) none (some 100) rfl).2.2.2.2⟩

/-! ## Doubles and unsigned long attributes -/

theorem roundHalfEven_intCast (k : ℤ) : roundHalfEven (k : ℚ) = k := by
  simp [roundHalfEven]

theorem pow2_nonneg_exp (k : ℕ) : pow2 (k : ℤ) = (2 : ℚ) ^ k := by
  simp [pow2]

theorem pow2_neg_exp (k : ℕ) : pow2 (-(k : ℤ)) = 1 / (2 : ℚ) ^ k := by
  rcases Nat.eq_zero_or_pos k with h | h
  · subst h; simp [pow2]
  · have : ¬ (0 : ℤ) ≤ -(k : ℤ) := by omega
    simp [pow2, this]

theorem log2Aux_bounds (fuel : ℕ) :
    ∀ n : ℕ, n ≠ 0 → n ≤ fuel →
      2 ^ log2Aux fuel n ≤ n ∧ n < 2 ^ (log2Aux fuel n + 1) := by
  induction fuel with
  | zero =>
    intro n hn hle
    omega
  | succ fuel ih =>
    intro n hn hle
    by_cases h2 : n < 2
    · have h1 : n = 1 := by omega
      subst h1
      simp [log2Aux]
    · have hhalf : n / 2 ≠ 0 := by omega
      obtain ⟨a, b⟩ := ih (n / 2) hhalf (by omega)
      simp only [log2Aux, h2, if_false]
      constructor
      · rw [pow_succ]
        exact (Nat.le_div_iff_mul_le (by norm_num)).mp a
      · rw [pow_succ]
        exact (Nat.div_lt_iff_lt_mul (by norm_num)).mp b

theorem natLog2_le_self (n : ℕ) (hn : n ≠ 0) : 2 ^ natLog2 n ≤ n :=
  (log2Aux_bounds n n hn le_rfl).1

theorem natLog2_lt (n k : ℕ) (hn : n ≠ 0) (h : n < 2 ^ k) : natLog2 n < k := by
  have h1 := natLog2_le_self n hn
  exact (Nat.pow_lt_pow_iff_right (by norm_num : 1 < 2)).mp (lt_of_le_of_lt h1 h)

theorem binaryExponent_natCast (n : ℕ) (hn : n ≠ 0) :
    binaryExponent (n : ℚ) = (natLog2 n : ℤ) := by
  have hle : (2 : ℚ) ^ natLog2 n ≤ (n : ℚ) := by
    exact_mod_cast natLog2_le_self n hn
  have h1 : natLog2 1 = 0 := by decide
  simp [binaryExponent, h1, pow2_nonneg_exp, hle]

/-- A natural number below `2 ^ 53` is a double. -/
theorem roundDouble_natCast (n : ℕ) (h : n < 2 ^ 53) : roundDouble (n : ℚ) = n := by
  rcases Nat.eq_zero_or_pos n with h0 | h0
  · subst h0; simp [roundDouble]
  have hn : n ≠ 0 := Nat.pos_iff_ne_zero.mp h0
  have hlog : natLog2 n < 53 := natLog2_lt n 53 hn h
  have hq : (n : ℚ) ≠ 0 := by exact_mod_cast hn
  have hpos : ¬ ((n : ℚ) < 0) := not_lt.mpr (by positivity)
  have hmax : max ((natLog2 n : ℤ)) (-1022) = (natLog2 n : ℤ) := by omega
  obtain ⟨k, hk⟩ : ∃ k : ℕ, (natLog2 n : ℤ) - 52 = -(k : ℤ) := ⟨52 - natLog2 n, by omega⟩
  have habs : |(n : ℚ)| = n := abs_of_nonneg (by positivity)
  have hint : (n : ℚ) / (1 / (2 : ℚ) ^ k) = ((n * 2 ^ k : ℕ) : ℤ) := by
    push_cast
    field_simp
  simp only [roundDouble, hq, if_false, binaryExponent_natCast n hn, hmax, hk, pow2_neg_exp, habs,
    hint, roundHalfEven_intCast, hpos]
  push_cast
  field_simp

theorem truncQ_natCast (n : ℕ) : truncQ (n : ℚ) = n := by
  have h : (0 : ℚ) ≤ n := by positivity
  simp [truncQ, h]

theorem reflectUnsignedLong_natCast (fallback n : ℕ) (h : n ≤ 2147483647) :
    reflectUnsignedLong fallback (n : ℚ) = n := by
  have h1 : toUnsignedLong (n : ℚ) = n := by
    simp only [toUnsignedLong, truncQ_natCast]
    omega
  simp [reflectUnsignedLong, h1, h]

/-! ## resize -/

theorem resizeIn_state (fl : ℚ → ℚ) (p : Player) (dpr : Option ℚ) (rect : Rect) :
    (resizeIn fl p dpr (some rect)).state =
      { p with
        canvasWidth := (reflectUnsignedLong 300 (fl (rect.width * dprOr1 dpr)) : ℕ)
        canvasHeight := (reflectUnsignedLong 150 (fl (rect.height * dprOr1 dpr)) : ℕ)
        styleWidth := some rect.width
        styleHeight := some rect.height
        imageSmoothingEnabled := true
        imageSmoothingQuality := "high" } := by
  simp [resizeIn, renderFrameIn_state]

theorem resize_canvasWidth_natCast (p : Player) (dpr : Option ℚ) (rect : Rect) (n : ℕ)
    (h : rect.width * dprOr1 dpr = n) (hn : n ≤ 2147483647) :
    (resize p dpr (some rect)).state.canvasWidth = n := by
  have hfl : roundDouble (n : ℚ) = n := roundDouble_natCast n (by omega)
  simp only [resize, resizeIn_state, h, hfl, reflectUnsignedLong_natCast 300 n hn]

theorem resize_canvasHeight_natCast (p : Player) (dpr : Option ℚ) (rect : Rect) (n : ℕ)
    (h : rect.height * dprOr1 dpr = n) (hn : n ≤ 2147483647) :
    (resize p dpr (some rect)).state.canvasHeight = n := by
  have hfl : roundDouble (n : ℚ) = n := roundDouble_natCast n (by omega)
  simp only [resize, resizeIn_state, h, hfl, reflectUnsignedLong_natCast 150 n hn]

/-- C9 as stated fails on the code: the canvas attributes are `unsigned long`.
Resizing to 400 x 300 at device pixel ratio 2.625 stores the height 787, not
`300 * 2.625 = 787.5`; the logical height `787 / 2.625` the re-render works
with is not 300; and after a resize to 800 x 600 (height 1575) the resize to
400 x 300 does not halve the height. -/
theorem resize_drops_fraction :
    (resize (construct 300 150) (some (21 / 8)) (some { width := 400, height := 300 })).state.canvasHeight
        = 787 ∧
      (787 : ℚ) ≠ 300 * dprOr1 (some (21 / 8)) ∧
      (787 : ℚ) / dprOr1 (some (21 / 8)) ≠ 300 ∧
      (resize (construct 300 150) (some (21 / 8))
        (some { width := 800, height := 600 })).state.canvasHeight = 1575 ∧
      (resize (resize (construct 300 150) (some (21 / 8))
          (some { width := 800, height := 600 })).state (some (21 / 8))
        (some { width := 400, height := 300 })).state.canvasHeight = 787 ∧
      2 * (787 : ℚ) ≠ 1575 := by
  have hd : dprOr1 (some (21 / 8)) = 21 / 8 := by norm_num [dprOr1]
  have e1 : roundDouble (300 * (21 / 8)) = 1575 / 2 := by decide!
  have e2 : reflectUnsignedLong 150 (1575 / 2) = 787 := by decide!
  have e3 : roundDouble (600 * (21 / 8)) = 1575 := by decide!
  have e4 : reflectUnsignedLong 150 1575 = 1575 := by decide!
  refine ⟨?_, by rw [hd]; norm_num, by rw [hd]; norm_num, ?_, ?_, by norm_num⟩
  · simp only [resize, resizeIn_state, hd, e1, e2]
    norm_num
  · simp only [resize, resizeIn_state, hd, e3, e4]
    norm_num
  · simp only [resize, resizeIn_state, hd, e1, e2]
    norm_num

/-- C9, amended: for a parent rectangle `width x height` and a device pixel
ratio `d` (missing or zero counting as 1), `resize` sets the canvas backing
size to the products `width * d` and `height * d`, computed in doubles and
stored as `unsigned long` (without the fraction), and the displayed size to
`width x height`; it leaves `currentFrame`, `isPlaying` and `lastFrameTime` as
they were, scales the context by `d` and calls `renderFrame` once, with the
unchanged `currentFrame`, on the state with the new canvas size, and raises
nothing. When `width * d` and `height * d` are integers from 0 to 2147483647
the backing size is exactly `(width * d, height * d)` and the backing size
divided by `d` is `width x height`. Resizing from 800 x 600 to 400 x 300
halves both backing dimensions when `400 * d` and `300 * d` are such integers.
Without a parent element `resize` changes no field and makes no call. -/
theorem resize_geometry (p : Player) (dpr : Option ℚ) (rect : Rect) :
    (resize p dpr (some rect)).state =
        { p with
          canvasWidth := (reflectUnsignedLong 300 (roundDouble (rect.width * dprOr1 dpr)) : ℕ)
          canvasHeight := (reflectUnsignedLong 150 (roundDouble (rect.height * dprOr1 dpr)) : ℕ)
          styleWidth := some rect.width
          styleHeight := some rect.height
          imageSmoothingEnabled := true
          imageSmoothingQuality := "high" } ∧
      (∀ x : ℚ, 0 ≤ x → x < 2147483648 →
        (reflectUnsignedLong 300 x : ℤ) = ⌊x⌋ ∧ (reflectUnsignedLong 150 x : ℤ) = ⌊x⌋) ∧
      (resize p dpr (some rect)).state.currentFrame = p.currentFrame ∧
      (resize p dpr (some rect)).state.isPlaying = p.isPlaying ∧
      (resize p dpr (some rect)).state.lastFrameTime = p.lastFrameTime ∧
      (resize p dpr (some rect)).calls =
        Call.scale (dprOr1 dpr) (dprOr1 dpr) :: Call.renderFrame (p.currentFrame : Int) ::
          (renderFrame (resize p dpr (some rect)).state dpr (p.currentFrame : Int)).calls ∧
      visited (resize p dpr (some rect)).calls = [(p.currentFrame : Int)] ∧
      (resize p dpr (some rect)).error = none ∧
      (∀ n m : ℕ, rect.width * dprOr1 dpr = n → rect.height * dprOr1 dpr = m →
        n ≤ 2147483647 → m ≤ 2147483647 →
        (resize p dpr (some rect)).state.canvasWidth = rect.width * dprOr1 dpr ∧
          (resize p dpr (some rect)).state.canvasHeight = rect.height * dprOr1 dpr ∧
          (resize p dpr (some rect)).state.canvasWidth / dprOr1 dpr = rect.width ∧
          (resize p dpr (some rect)).state.canvasHeight / dprOr1 dpr = rect.height) ∧
      (∀ n m : ℕ, 400 * dprOr1 dpr = n → 300 * dprOr1 dpr = m →
        2 * n ≤ 2147483647 → 2 * m ≤ 2147483647 →
        2 * (resize (resize p dpr (some { width := 800, height := 600 })).state dpr
              (some { width := 400, height := 300 })).state.canvasWidth
            = (resize p dpr (some { width := 800, height := 600 })).state.canvasWidth ∧
          2 * (resize (resize p dpr (some { width := 800, height := 600 })).state dpr
              (some { width := 400, height := 300 })).state.canvasHeight
            = (resize p dpr (some { width := 800, height := 600 })).state.canvasHeight) ∧
      (∀ d : ℚ, d ≠ 0 → dprOr1 (some d) = d) ∧ dprOr1 none = 1 ∧ dprOr1 (some 0) = 1 ∧
      resize p dpr none = { state := p, calls := [], error := none } := by
  have hd := dprOr1_ne_zero dpr
  have hstate := resizeIn_state roundDouble p dpr rect
  refine ⟨hstate, ?_, ?_, ?_, ?_, ?_, ?_, ?_, ?_, ?_, dprOr1_some, rfl, by simp [dprOr1], rfl⟩
  · intro x h0 h1
    have hfl0 : (0 : ℤ) ≤ ⌊x⌋ := Int.floor_nonneg.mpr h0
    have hfl1 : ⌊x⌋ < 2147483648 := by
      rw [Int.floor_lt]
      exact_mod_cast h1
    have ht : truncQ x = ⌊x⌋ := by simp [truncQ, h0]
    have hu : (toUnsignedLong x : ℤ) = ⌊x⌋ := by
      simp only [toUnsignedLong, ht]
      omega
    have hle : toUnsignedLong x ≤ 2147483647 := by omega
    simp only [reflectUnsignedLong, hle, if_true, hu, and_self]
  · simp only [resize, hstate]
  · simp only [resize, hstate]
  · simp only [resize, hstate]
  · simp only [resize, hstate, renderFrame]
    simp [resizeIn]
  · have hcons : ∀ (i : Int) (l : List Call),
        visited (Call.scale (dprOr1 dpr) (dprOr1 dpr) :: Call.renderFrame i :: l)
          = i :: visited l := by
      intro i l; simp [visited]
    simp only [resize, resizeIn, hcons, renderFrameIn_visited]
  · simp [resize, resizeIn, renderFrameIn_error]
  · intro n m hn hm hn2 hm2
    have hw := resize_canvasWidth_natCast p dpr rect n hn hn2
    have hh := resize_canvasHeight_natCast p dpr rect m hm hm2
    rw [hw, hh, hn, hm]
    refine ⟨rfl, rfl, ?_, ?_⟩
    · rw [← hn]; exact mul_div_cancel_right₀ _ hd
    · rw [← hm]; exact mul_div_cancel_right₀ _ hd
  · intro n m hn hm hn2 hm2
    have hn8 : (800 : ℚ) * dprOr1 dpr = ((2 * n : ℕ) : ℚ) := by
      push_cast; rw [← hn]; ring
    have hm6 : (600 : ℚ) * dprOr1 dpr = ((2 * m : ℕ) : ℚ) := by
      push_cast; rw [← hm]; ring
    have a1 := resize_canvasWidth_natCast p dpr { width := 800, height := 600 } (2 * n) hn8 hn2
    have a2 := resize_canvasHeight_natCast p dpr { width := 800, height := 600 } (2 * m) hm6 hm2
    have b1 := resize_canvasWidth_natCast
      (resize p dpr (some { width := 800, height := 600 })).state dpr
      { width := 400, height := 300 } n hn (by omega)
    have b2 := resize_canvasHeight_natCast
      (resize p dpr (some { width := 800, height := 600 })).state dpr
      { width := 400, height := 300 } m hm (by omega)
    rw [a1, a2, b1, b2]
    push_cast
    exact ⟨rfl, rfl⟩

theorem resize_geometry_witness :
    (400 : ℚ) * dprOr1 (some 2) = (800 : ℕ) ∧ (300 : ℚ) * dprOr1 (some 2) = (600 : ℕ) ∧
      2 * (resize (resize (construct 300 150) (some 2)
            (some { width := 800, height := 600 })).state (some 2)
            (some { width := 400, height := 300 })).state.canvasWidth
          = (resize (construct 300 150) (some 2)
              (some { width := 800, height := 600 })).state.canvasWidth ∧
        2 * (resize (resize (construct 300 150) (some 2)
            (some { width := 800, height := 600 })).state (some 2)
            (some { width := 400, height := 300 })).state.canvasHeight
          = (resize (construct 300 150) (some 2)
              (some { width := 800, height := 600 })).state.canvasHeight :=
  have h1 : (400 : ℚ) * dprOr1 (some 2) = (800 : ℕ) := by norm_num [dprOr1]
  have h2 : (300 : ℚ) * dprOr1 (some 2) = (600 : ℕ) := by norm_num [dprOr1]
  ⟨h1, h2,
    (resize_geometry (construct 300 150) (some 2) { width := 1, height := 1 }).2.2.2.2.2.2.2.2.2.1
      800 600 h1 h2 (by norm_num) (by norm_num)⟩

/-! ## The page: pending animation-frame callbacks -/

theorem runCallbacks_playing (dpr : Option ℚ) (t : ℚ) (n : Nat) :
    ∀ (p : Player) (m : Nat), p.isPlaying = true →
      (runCallbacks dpr t n (p, m)).2 = m + n ∧ (runCallbacks dpr t n (p, m)).1.isPlaying = true := by
  induction n with
  | zero =>
    intro p m hp
    exact ⟨rfl, hp⟩
  | succ n ih =>
    intro p m hp
    rcases loop_cases p dpr t with ⟨-, -, -, hf⟩ | ⟨hr, hs, -, -, -⟩ | ⟨hr, hs, -, -, -⟩
    · rw [hp] at hf
      exact absurd hf (by decide)
    · obtain ⟨h1, h2⟩ := ih (loop p dpr (some t)).state (m + 1) (by rw [hs]; exact hp)
      simp only [runCallbacks, hr]
      exact ⟨by rw [h1]; ring, h2⟩
    · obtain ⟨h1, h2⟩ := ih (loop p dpr (some t)).state (m + 1) (by rw [hs]; exact hp)
      simp only [runCallbacks, hr]
      exact ⟨by rw [h1]; ring, h2⟩

theorem runCallbacks_paused (dpr : Option ℚ) (t : ℚ) (n : Nat) :
    ∀ (p : Player) (m : Nat), p.isPlaying = false → runCallbacks dpr t n (p, m) = (p, m) := by
  induction n with
  | zero =>
    intro p m _
    rfl
  | succ n ih =>
    intro p m hp
    simp only [runCallbacks, loop_not_playing p dpr (some t) hp]
    exact ih p _ hp

theorem step_frame_playing (dpr : Option ℚ) (t : ℚ) (s : Page) (h : s.player.isPlaying = true) :
    (Page.step dpr s (Event.animationFrame t)).pending = s.pending ∧
      (Page.step dpr s (Event.animationFrame t)).player.isPlaying = true := by
  obtain ⟨h1, h2⟩ := runCallbacks_playing dpr t s.pending s.player 0 h
  exact ⟨by simp [Page.step, h1], by simp [Page.step, h2]⟩

theorem run_play_pause_play (dpr : Option ℚ) (p : Player) (n : Nat) (now now2 : ℚ)
    (h : p.isPlaying = false) :
    Page.run dpr { player := p, pending := n } [Event.play now, Event.pause, Event.play now2]
      = { player := { p with isPlaying := true, lastFrameTime := now2 }, pending := n + 2 } := by
  simp [Page.run, Page.step, play, pause, loop, h, requested]

theorem construct_isPlaying (cw ch : ℚ) : (construct cw ch).isPlaying = false := rfl

/-- C10 on the code: from the initial state, `play()` schedules one `loop`
callback; `pause()` leaves it pending, and a `play()` before the next
animation frame schedules a second one. Both then reschedule themselves at
every animation frame. Only when an animation frame comes between `pause()`
and `play()` does the first chain end, leaving no callback pending. -/
theorem pause_then_play_leaves_two_loops :
    (Page.run none { player := construct 300 150, pending := 0 } [Event.play 0]).pending = 1 ∧
    (Page.run none { player := construct 300 150, pending := 0 }
      [Event.play 0, Event.pause, Event.play 1]).pending = 2 ∧
    (Page.run none { player := construct 300 150, pending := 0 }
      [Event.play 0, Event.pause, Event.play 1, Event.animationFrame 50,
        Event.animationFrame 100]).pending = 2 ∧
    (Page.run none { player := construct 300 150, pending := 0 }
      [Event.play 0, Event.pause, Event.animationFrame 50]).pending = 0 := by
  have h0 := construct_isPlaying 300 150
  have h3 := run_play_pause_play none (construct 300 150) 0 0 1 h0
  refine ⟨?_, ?_, ?_, ?_⟩
  · simp [Page.run, Page.step, play_not_playing _ none _ h0, requested]
  · rw [h3]
  · have hsplit : Page.run none { player := construct 300 150, pending := 0 }
        [Event.play 0, Event.pause, Event.play 1, Event.animationFrame 50,
          Event.animationFrame 100]
        = Page.step none (Page.step none
            (Page.run none { player := construct 300 150, pending := 0 }
              [Event.play 0, Event.pause, Event.play 1]) (Event.animationFrame 50))
            (Event.animationFrame 100) := rfl
    rw [hsplit, h3]
    obtain ⟨a1, a2⟩ := step_frame_playing none 50
      { player := { construct 300 150 with isPlaying := true, lastFrameTime := 1 }
        pending := 0 + 2 } rfl
    obtain ⟨b1, -⟩ := step_frame_playing none 100 _ a2
    rw [b1, a1]
  · simp [Page.run, Page.step, play_not_playing _ none _ h0, requested, pause,
      runCallbacks, loop]

end MatchaSequence
